import Mathlib

/-!
Verification of the singularity engine preparation pipeline
(`internal/pkg/runtime/engine/singularity/prepare_linux.go`), the starter
shared-memory configuration (`internal/pkg/runtime/engine/config/starter`),
and the host-side lifecycle handshake, as a shallow embedding in Lean 4.

Environment probes (kernel feature checks, `/proc` reads, user database
lookups) are modelled as explicit inputs; logging calls (`sylog.Debugf`,
`sylog.Warningf`) have no semantic effect and are not modelled.
`sylog.Fatalf` aborts the process and is modelled as an error result.
-/

namespace Singularity

/-- Session layer choice: `singularityConfig.DefaultLayer` (no composition
layer), `OverlayLayer` or `UnderlayLayer`. -/
inductive SessionLayer where
  | defaultLayer
  | overlayLayer
  | underlayLayer
deriving DecidableEq, Repr

/-- Image types from `pkg/image` relevant to session-layer selection. -/
inductive ImageType where
  | squashfs
  | ext3
  | sandbox
  | sif
  | ocisif
deriving DecidableEq, Repr

/-- Partition filesystem types inside a SIF image. -/
inductive PartFs where
  | ext3
  | squashfs
  | other
deriving DecidableEq, Repr

/-- The fields of `image.Image` consumed by `setSessionLayer` and
`loadImages`.  `overlayPartitions` holds the filesystem types of the
overlay partitions of a SIF image (`img.GetOverlayPartitions`). -/
structure Image where
  type : ImageType
  path : String
  writable : Bool
  overlayPartitions : List PartFs
deriving DecidableEq, Repr

/-- Linux namespace types (`specs.LinuxNamespaceType`). -/
inductive NsType where
  | mnt
  | uts
  | ipc
  | pid
  | net
  | user
  | cgroup
deriving DecidableEq, Repr

/-- An entry of `OciConfig.Linux.Namespaces` (`specs.LinuxNamespace`). -/
structure LinuxNamespace where
  type : NsType
  path : String := ""
deriving DecidableEq, Repr

/-- The administrator policy fields of `singularityconf.File` consumed by
the preparation pipeline. -/
structure FileConfig where
  enableOverlay : String
  enableUnderlay : Bool
  allowIpcNs : Bool
  allowPidNs : Bool
  allowUtsNs : Bool
  allowUserNs : Bool
  allowNetnsPaths : List String
  rootDefaultCapabilities : String
deriving DecidableEq, Repr

/-- Host environment probes consumed by `setSessionLayer`:
`namespaces.IsInsideUserNamespace`, `overlay.CheckRootless` (true when it
returns no error) and `proc.HasFilesystem("overlay")`. -/
structure SessionEnv where
  insideUserNs : Bool
  rootlessOverlayOk : Bool
  kernelHasOverlayFS : Bool
deriving DecidableEq, Repr

/-- The request-scoped engine configuration fields read by
`setSessionLayer`: `GetWritableTmpfs`, `GetWritableImage`,
`GetOverlayImage` and `OciConfig.Linux.Namespaces`. -/
structure SessionRequest where
  writableTmpfs : Bool
  writableImage : Bool
  overlayImages : List String
  namespaces : List LinuxNamespace
deriving DecidableEq, Repr

/-- `setSessionLayer` (prepare_linux.go:1096-1215), as a pure decision
function.  The Go function initializes the session layer to
`DefaultLayer`, rejects `--writable` together with overlay images, then
walks the ordered fallback table; an error return aborts `loadImages`
before any layer takes effect.  The I/O error path of
`img.GetOverlayPartitions` is a SIF read failure and is not modelled. -/
def setSessionLayer (cfg : FileConfig) (env : SessionEnv) (req : SessionRequest)
    (img : Image) : Except String SessionLayer :=
  let writableTmpfs := req.writableTmpfs
  let writableImage := req.writableImage
  let hasOverlayImage := decide (req.overlayImages.length > 0)
  if writableImage && hasOverlayImage then
    .error "you could not use --overlay in conjunction with --writable"
  else
    let hasSIFOverlay := img.type = ImageType.sif &&
      img.overlayPartitions.any (· = PartFs.ext3)
    let userNS := env.insideUserNs ||
      req.namespaces.any (·.type = NsType.user)
    let useOverlay := cfg.enableOverlay = "yes" || cfg.enableOverlay = "try"
    let rootlessOverlay := userNS && useOverlay && env.rootlessOverlayOk
    if userNS && !rootlessOverlay then
      if !cfg.enableUnderlay then
        .ok SessionLayer.defaultLayer
      else if !writableImage then
        .ok SessionLayer.underlayLayer
      else
        .ok SessionLayer.defaultLayer
    else if env.kernelHasOverlayFS then
      if cfg.enableOverlay = "yes" || cfg.enableOverlay = "try" then
        if !writableImage || hasSIFOverlay then
          .ok SessionLayer.overlayLayer
        else
          .ok SessionLayer.defaultLayer
      else if hasOverlayImage then
        .error "overlay images requires overlay enabled: set to no by administrator"
      else if writableTmpfs then
        .error "--writable-tmpfs requires overlay enabled: set to no by administrator"
      else if !writableImage && cfg.enableUnderlay then
        .ok SessionLayer.underlayLayer
      else
        .ok SessionLayer.defaultLayer
    else if writableTmpfs then
      .error "--writable-tmpfs requires overlay kernel support"
    else if hasOverlayImage then
      .error "overlay images requires overlay kernel support"
    else if !writableImage && cfg.enableUnderlay then
      .ok SessionLayer.underlayLayer
    else
      .ok SessionLayer.defaultLayer

/-- Outcome of the `overlay.CheckLower` probe on a sandbox image directory
(prepare_linux.go:1276): compatible, incompatible with overlay mounting,
or a distinct check failure. -/
inductive LowerCheck where
  | compatible
  | incompatible (msg : String)
  | failed (msg : String)
deriving DecidableEq, Repr

/-- The sandbox overlay-compatibility fallback of `loadImages`
(prepare_linux.go:1275-1303): when the chosen layer is overlay and the
root image is a sandbox whose filesystem is incompatible with overlay,
fall back to underlay if enabled, else to no layer.  The accompanying
disabling of `--writable-tmpfs` and overlay images only raises warnings
and affects later mount handling, not the layer choice. -/
def sandboxOverlayFallback (cfg : FileConfig) (img : Image) (lower : LowerCheck)
    (layer : SessionLayer) : Except String SessionLayer :=
  if img.type = ImageType.sandbox && layer = SessionLayer.overlayLayer then
    match lower with
    | LowerCheck.incompatible _ =>
        if !cfg.enableUnderlay then .ok SessionLayer.defaultLayer
        else .ok SessionLayer.underlayLayer
    | LowerCheck.compatible => .ok layer
    | LowerCheck.failed msg =>
        .error ("while checking image compatibility with overlay: " ++ msg)
  else
    .ok layer

/-- Complete session-layer selection as performed by `loadImages`:
`setSessionLayer` followed by the sandbox overlay fallback. -/
def sessionLayerSelection (cfg : FileConfig) (env : SessionEnv)
    (req : SessionRequest) (img : Image) (lower : LowerCheck) :
    Except String SessionLayer :=
  match setSessionLayer cfg env req img with
  | .error e => .error e
  | .ok layer => sandboxOverlayFallback cfg img lower layer

/-- `removeNamespace` (prepare_linux.go:528-541): removes the first
namespace entry of the given type from the slice (the Go loop breaks
after the first removal), emitting only a warning. -/
def removeNamespace : List LinuxNamespace → NsType → List LinuxNamespace
  | [], _ => []
  | ns :: rest, t => if ns.type = t then rest else ns :: removeNamespace rest t

/-- `hasNamespace` (prepare_linux.go:546-554): returns the path of the
first namespace entry of the given type, if any. -/
def hasNamespacePath (nss : List LinuxNamespace) (t : NsType) : Option String :=
  match nss.find? (·.type = t) with
  | some ns => some ns.path
  | none => none

/-- Modelled from the spec: the OCI generator method
`AddOrReplaceLinuxNamespace` (the generator package is not part of the
sampled sources) replaces the existing namespace entry of the given type
or appends a new one, so a namespace list built through it holds at most
one entry per type. -/
def addOrReplaceLinuxNamespace (nss : List LinuxNamespace) (t : NsType)
    (path : String) : List LinuxNamespace :=
  if nss.any (·.type = t) then
    nss.map (fun ns => if ns.type = t then ⟨t, path⟩ else ns)
  else
    nss ++ [⟨t, path⟩]

/-- Step 1 of the namespace-policy phase (prepare_linux.go:602): always
request a mount namespace. -/
def nsPhase1 (nss0 : List LinuxNamespace) : List LinuxNamespace :=
  addOrReplaceLinuxNamespace nss0 NsType.mnt ""

/-- Step 2 (prepare_linux.go:605-607): drop the IPC namespace when
disallowed by policy (warning only). -/
def nsPhase2 (cfg : FileConfig) (nss0 : List LinuxNamespace) : List LinuxNamespace :=
  if cfg.allowIpcNs then nsPhase1 nss0
  else removeNamespace (nsPhase1 nss0) NsType.ipc

/-- Step 3 (prepare_linux.go:608-610): drop the PID namespace when
disallowed by policy (warning only). -/
def nsPhase3 (cfg : FileConfig) (nss0 : List LinuxNamespace) : List LinuxNamespace :=
  if cfg.allowPidNs then nsPhase2 cfg nss0
  else removeNamespace (nsPhase2 cfg nss0) NsType.pid

/-- Step 5 (prepare_linux.go:619-624): drop the UTS namespace when
disallowed by policy (warning only). -/
def nsPhase4 (cfg : FileConfig) (nss0 : List LinuxNamespace) : List LinuxNamespace :=
  if cfg.allowUtsNs then nsPhase3 cfg nss0
  else removeNamespace (nsPhase3 cfg nss0) NsType.uts

/-- The namespace-policy phase of `prepareContainerConfig`
(prepare_linux.go:600-624): mount namespace always requested, disallowed
IPC/PID/UTS namespaces removed with warnings, and a fatal abort
(`sylog.Fatalf`, modelled as an error) when the user namespace is
disallowed while the installation is unprivileged
(`buildcfg.SINGULARITY_SUID_INSTALL == 0`, embedded as `suidInstall`) or
the configuration requests a user namespace (checked between the PID and
UTS removals, as in the source). -/
def prepareNamespacesPhase (cfg : FileConfig) (suidInstall : Nat)
    (nss0 : List LinuxNamespace) : Except String (List LinuxNamespace) :=
  if !cfg.allowUserNs && suidInstall = 0 then
    .error "Unprivileged installation found, user namepace needed but not allowed by configuration."
  else if !cfg.allowUserNs && (nsPhase3 cfg nss0).any (·.type = NsType.user) then
    .error "User namespace required but not allowed by configuration."
  else
    .ok (nsPhase4 cfg nss0)

/-- Outcomes of the host probes consumed by `joinNetns`: whether
`os.Stat` on the netns path succeeds, the effective UID, and the results
of the `user.UIDInList` / `user.UIDInAnyGroup` allow-list lookups
(whose own database failures abort preparation and are not modelled). -/
structure NetnsEnv where
  euid : Nat
  pathOk : Bool
  allowedNetUser : Bool
  allowedNetGroup : Bool
deriving DecidableEq, Repr

/-- Modelled from the spec: the starter shared-memory namespace path
buffers are fixed-size (`MAX_PATH_SIZE` in starter.h, a path buffer of
`PATH_MAX` = 4096 bytes). -/
def maxPathSize : Nat := 4096

/-- The length guard of `starter.Config.SetNsPath` (config.go in the
starter package): storing a namespace join path fails when the path does
not fit the fixed-size buffer. -/
def setNsPathCheck (path : String) : Except String Unit :=
  if path.length > maxPathSize - 1 then
    .error "namespace path too big"
  else
    .ok ()

/-- `joinNetns` (prepare_linux.go:556-596): validates a request to join
an existing network namespace by path.  Returns the stored join path
(`none` when no network namespace join was requested). -/
def joinNetns (cfg : FileConfig) (env : NetnsEnv)
    (nss : List LinuxNamespace) : Except String (Option String) :=
  match hasNamespacePath nss NsType.net with
  | none => .ok none
  | some path =>
    if path = "" then .ok none
    else if !env.pathOk then .error "while checking netns path"
    else if env.euid = 0 then
      match setNsPathCheck path with
      | .error e => .error e
      | .ok _ => .ok (some path)
    else if !(cfg.allowNetnsPaths.contains path) then
      .error "is not an allowed netns path in singularity.conf"
    else if !env.allowedNetUser && !env.allowedNetGroup then
      .error "you are not permitted to join network namespaces in singularity.conf"
    else
      match setNsPathCheck path with
      | .error e => .error e
      | .ok _ => .ok (some path)

/-- Per-user and per-group capability authorization tables parsed from
the capability configuration file (`capabilities.ReadFrom`). -/
structure CapAuthConfig where
  users : List (String × List String)
  groups : List (String × List String)
deriving DecidableEq, Repr

/-- Modelled from the spec: `capConfig.ListUserCaps` (the capabilities
package is not among the sampled sources) — the capability names the
authorization table grants to the named user. -/
def listUserCaps (cfg : CapAuthConfig) (name : String) : List String :=
  match cfg.users.find? (·.1 = name) with
  | some e => e.2
  | none => []

/-- Modelled from the spec: `capConfig.ListGroupCaps` — the capability
names the authorization table grants to the named group. -/
def listGroupCaps (cfg : CapAuthConfig) (name : String) : List String :=
  match cfg.groups.find? (·.1 = name) with
  | some e => e.2
  | none => []

/-- Modelled from the spec: `capConfig.CheckUserCaps` splits requested
capabilities into the ones authorized for the user and the rest. -/
def checkUserCaps (cfg : CapAuthConfig) (name : String)
    (caps : List String) : List String × List String :=
  (caps.filter (fun c => decide (c ∈ listUserCaps cfg name)),
   caps.filter (fun c => decide (¬ c ∈ listUserCaps cfg name)))

/-- Modelled from the spec: `capConfig.CheckGroupCaps` splits requested
capabilities into the ones authorized for the group and the rest. -/
def checkGroupCaps (cfg : CapAuthConfig) (name : String)
    (caps : List String) : List String × List String :=
  (caps.filter (fun c => decide (c ∈ listGroupCaps cfg name)),
   caps.filter (fun c => decide (¬ c ∈ listGroupCaps cfg name)))

/-- Modelled from the spec: `capabilities.Split` partitions a requested
capability list against the fixed enumeration of known capability names;
unknown names are only warned about. -/
def capSplit (known : List String) (caps : List String) :
    List String × List String :=
  (caps.filter (fun c => decide (c ∈ known)),
   caps.filter (fun c => decide (¬ c ∈ known)))

/-- Modelled from the spec: `capabilities.RemoveDuplicated`.  Only the
set of names matters for the final bitmasks. -/
def removeDuplicated (caps : List String) : List String :=
  caps.dedup

/-- The drop loop of the capability resolvers (prepare_linux.go:295-303
and 404-412): each requested drop removes the occurrence of the
capability from the common list (unique after duplicate removal). -/
def eraseAll (caps : List String) (drops : List String) : List String :=
  drops.foldl (fun acc c => acc.erase c) caps

/-- Inputs of `prepareUserCaps` resolved from the host: the parsed
capability file, `user.Current()`, `os.Getgroups()` and the
`user.GetGrGID` name resolutions (groups that fail to resolve are
skipped), and the fixed enumeration of known capability names
(`capabilities.Map`). -/
structure UserCapsEnv where
  capCfg : CapAuthConfig
  userName : String
  groups : List Nat
  groupNames : List (Nat × String)
  knownCaps : List String
deriving DecidableEq, Repr

/-- The group loop of `prepareUserCaps` (prepare_linux.go:251-269):
starting from the user-authorized capabilities, append the
group-authorized ones for every resolvable supplementary group. -/
def groupCapsFold (cfg : CapAuthConfig) (groupNames : List (Nat × String))
    (caps : List String) : List Nat → List String → List String
  | [], acc => acc
  | g :: rest, acc =>
      match groupNames.find? (·.1 = g) with
      | none => groupCapsFold cfg groupNames caps rest acc
      | some e =>
          groupCapsFold cfg groupNames caps rest
            (acc ++ (checkGroupCaps cfg e.2 caps).1)

/-- The enforced branch of `prepareUserCaps` (prepare_linux.go:236-269):
capabilities authorized for the invoking user plus those authorized for
any of the user's groups. -/
def enforcedCommonCaps (env : UserCapsEnv) (caps : List String) : List String :=
  groupCapsFold env.capCfg env.groupNames caps env.groups
    (checkUserCaps env.capCfg env.userName caps).1

/-- The capability-list computation of `prepareUserCaps`
(prepare_linux.go:230-303) as a function of the initial permitted set
`P0` (line 234 appends `Process.Capabilities.Permitted` to the requested
additions).  The unauthorized-capability bookkeeping
(lines 242-244, 266-268, 275-289) only feeds a warning message and is
not modelled. -/
def userCapsCompute (env : UserCapsEnv) (enforced : Bool)
    (addReq dropReq P0 : List String) : List String :=
  let caps := (capSplit env.knownCaps addReq).1 ++ P0
  let common := if enforced then enforcedCommonCaps env caps else caps
  let common := removeDuplicated common
  eraseAll common (capSplit env.knownCaps dropReq).1

/-- The five OCI capability classes
(`specs.LinuxCapabilities`). -/
structure CapsSets where
  permitted : List String
  effective : List String
  inheritable : List String
  bounding : List String
  ambient : List String
deriving DecidableEq, Repr

/-- The capability-relevant parts of `OciConfig.Process`. -/
structure ProcessState where
  caps : CapsSets
  noNewPrivileges : Bool
deriving DecidableEq, Repr

/-- `prepareUserCaps` (prepare_linux.go:208-312): unconditionally sets
NO_NEW_PRIVS (line 212), resolves the requested capabilities against the
authorization tables when enforced, and writes the identical final list
into all five capability classes (lines 305-309).  The I/O error paths
(capability file open/parse, user/group lookups) abort preparation and
are not modelled: the resolved environment is an input. -/
def prepareUserCaps (env : UserCapsEnv) (enforced : Bool)
    (addReq dropReq : List String) (st : ProcessState) : ProcessState :=
  let st1 : ProcessState := { st with noNewPrivileges := true }
  let common := userCapsCompute env enforced addReq dropReq st1.caps.permitted
  { st1 with caps := ⟨common, common, common, common, common⟩ }

/-- Inputs of `prepareRootCaps` resolved from the host: the parsed
capability file, root's supplementary groups with their name
resolutions, the known capability enumeration, and the full capability
list granted by `SetupPrivileged` (modelled from the spec: the `full`
mode is a wildcard grant of every known capability). -/
structure RootCapsEnv where
  capCfg : CapAuthConfig
  groups : List Nat
  groupNames : List (Nat × String)
  knownCaps : List String
  allCaps : List String
deriving DecidableEq, Repr

/-- The request-scoped inputs of `prepareRootCaps`: target UID/GIDs,
`--no-privs` / `--keep-privs`, the administrator
`root default capabilities` directive, and the requested add/drop
lists. -/
structure RootCapsReq where
  targetUID : Nat
  targetGIDs : List Nat
  noPrivs : Bool
  keepPrivs : Bool
  rootDefaultCapabilities : String
  addReq : List String
  dropReq : List String
deriving DecidableEq, Repr

/-- The default-capability mode resolution of `prepareRootCaps`
(prepare_linux.go:318-334): a non-root target identity forces "no",
then `--no-privs` forces "no" and `--keep-privs` forces "full". -/
def rootDefaultMode (req : RootCapsReq) : String :=
  let d := if req.targetUID ≠ 0 ∨ req.targetGIDs ≠ [] then "no"
           else req.rootDefaultCapabilities
  if req.noPrivs then "no" else if req.keepPrivs then "full" else d

/-- The `file` branch of `prepareRootCaps` (prepare_linux.go:343-375):
authorization-table capabilities of user "root" plus those of each
resolvable group of the invoking process. -/
def rootFileCaps (env : RootCapsEnv) : List String :=
  env.groups.foldl
    (fun acc g =>
      match env.groupNames.find? (·.1 = g) with
      | none => acc
      | some e => acc ++ listGroupCaps env.capCfg e.2)
    (listUserCaps env.capCfg "root")

/-- The base capability list of `prepareRootCaps` by default mode
(prepare_linux.go:339-378): `full` grants every capability (via
`SetupPrivileged(true)`, after which line 342 reads the permitted set it
just filled), `file` reads the authorization tables, anything else
grants none and enables NO_NEW_PRIVS. -/
def rootCapsBase (env : RootCapsEnv) (mode : String) : List String :=
  if mode = "full" then env.allCaps
  else if mode = "file" then rootFileCaps env
  else []

/-- The add loop of `prepareRootCaps` (prepare_linux.go:384-396): append
each known requested capability not already present. -/
def rootAddLoop (common : List String) (adds : List String) : List String :=
  adds.foldl (fun acc c => if c ∈ acc then acc else acc ++ [c]) common

/-- `prepareRootCaps` (prepare_linux.go:316-421): resolves the default
mode, the base capability list, the add/drop lists, writes the identical
final list into all five capability classes, and enables NO_NEW_PRIVS
only in the minimal-default mode (line 377). -/
def prepareRootCaps (env : RootCapsEnv) (req : RootCapsReq)
    (st : ProcessState) : ProcessState :=
  let mode := rootDefaultMode req
  let common := rootCapsBase env mode
  let nnp := if mode = "full" ∨ mode = "file" then st.noNewPrivileges else true
  let common := rootAddLoop common (capSplit env.knownCaps req.addReq).1
  let common := removeDuplicated common
  let common := eraseAll common (capSplit env.knownCaps req.dropReq).1
  { caps := ⟨common, common, common, common, common⟩, noNewPrivileges := nnp }

/-- A capability is authorized for the invoking non-root identity when
the table grants it to the user name or to any resolvable supplementary
group. -/
def userAuthOk (env : UserCapsEnv) (c : String) : Prop :=
  c ∈ listUserCaps env.capCfg env.userName ∨
    ∃ g ∈ env.groups, ∃ e, env.groupNames.find? (·.1 = g) = some e ∧
      c ∈ listGroupCaps env.capCfg e.2

/-- Concrete authorization environment refuting claim C8 as stated: the
user "alice" is authorized for `CAP_NET_ADMIN`, which is a known
capability; no groups. -/
def envC8 : UserCapsEnv :=
  ⟨⟨[("alice", ["CAP_NET_ADMIN"])], []⟩, "alice", [], [], ["CAP_NET_ADMIN"]⟩

/-- Process state whose pre-existing permitted set already holds
`CAP_NET_ADMIN` (as happens on the enforced instance-join path, where
the instance capabilities are copied into the permitted set before the
resolver runs, prepare_linux.go:946). -/
def stC8 : ProcessState :=
  ⟨⟨["CAP_NET_ADMIN"], [], [], [], []⟩, false⟩

/-- Process state with an empty pre-existing permitted set, for the
witness of the amended claim C8. -/
def stC8b : ProcessState :=
  ⟨⟨[], [], [], [], []⟩, false⟩

/-- An entry of `specs.LinuxIDMapping`. -/
structure LinuxIDMapping where
  containerID : Nat
  hostID : Nat
  size : Nat
deriving DecidableEq, Repr

/-- A subordinate ID range as returned by the fakeroot package. -/
structure IDRange where
  hostID : Nat
  containerID : Nat
  size : Nat
deriving DecidableEq, Repr

/-- Modelled from the spec: `fakeroot.GetUIDRange` / `GetGIDRange` (the
fakeroot package is not among the sampled sources) return the
administrator-allocated subordinate ID range for the invoking user —
container IDs starting at 1, host IDs at the configured start, with the
configured size — and fail when no range is configured for the user.
`sub` associates a UID with its configured (start, size) pair. -/
def getIDRange (sub : List (Nat × Nat × Nat)) (uid : Nat) : Option IDRange :=
  match sub.find? (·.1 = uid) with
  | some e => some ⟨e.2.1, 1, e.2.2⟩
  | none => none

/-- Modelled from the spec: the OCI generator method
`AddLinuxUIDMapping(hostID, containerID, size)` appends one mapping
entry to the mapping list. -/
def addLinuxIDMapping (maps : List LinuxIDMapping)
    (hostID containerID size : Nat) : List LinuxIDMapping :=
  maps ++ [⟨containerID, hostID, size⟩]

/-- The fakeroot ID-mapping construction of `prepareContainerConfig`
(prepare_linux.go:662-685): map the invoking UID (resp. GID) to
container ID 0 as a singleton first entry, then append the subordinate
range for the invoking UID (`GetGIDRange` is keyed by the UID as well,
line 680).  A missing range fails with a `could not use fakeroot`
error. -/
def fakerootMappings (uid gid : Nat) (subUID subGID : List (Nat × Nat × Nat)) :
    Except String (List LinuxIDMapping × List LinuxIDMapping) :=
  let uidMaps := addLinuxIDMapping [] uid 0 1
  match getIDRange subUID uid with
  | none => .error "could not use fakeroot: no subordinate UID range found"
  | some ru =>
    let uidMaps := addLinuxIDMapping uidMaps ru.hostID ru.containerID ru.size
    let gidMaps := addLinuxIDMapping [] gid 0 1
    match getIDRange subGID uid with
    | none => .error "could not use fakeroot: no subordinate GID range found"
    | some rg =>
      .ok (uidMaps, addLinuxIDMapping gidMaps rg.hostID rg.containerID rg.size)

/-- The serialization of `starter.Config.AddUIDMappings` /
`AddGIDMappings` (starter config.go): newline-delimited
`containerID hostID size` triples written to the shared-memory buffer.
The `MAX_MAP_SIZE` capacity bound is declared in starter.h (not sampled)
and is not modelled. -/
def idMapString (maps : List LinuxIDMapping) : String :=
  maps.foldl
    (fun acc u =>
      acc ++ toString u.containerID ++ " " ++ toString u.hostID ++ " "
        ++ toString u.size ++ "\n") ""

/-- The fields of the persisted instance record (`instance.File`)
consumed by `prepareInstanceJoinConfig`. -/
structure InstanceFile where
  pid : Int
  ppid : Int
  userNs : Bool
  cgroup : Bool
deriving DecidableEq, Repr

/-- `suidRequired` (prepare_linux.go:757): a non-root user joining an
instance started without a user namespace requires the SUID workflow. -/
def suidRequiredFor (uid : Nat) (file : InstanceFile) : Bool :=
  decide (uid ≠ 0) && !file.userNs

/-- The basic checks of `prepareInstanceJoinConfig`
(prepare_linux.go:757-774): workflow/privilege matching and PID/PPID
sanity, performed before the `/proc/<pid>` directory is opened. -/
def joinBasicChecks (uid : Nat) (isSuid : Bool) (file : InstanceFile) :
    Except String Unit :=
  if isSuid && !(suidRequiredFor uid file) then
    .error "joining user namespace with suid workflow is not allowed"
  else if !isSuid && suidRequiredFor uid file then
    .error "a setuid installation is required to join this instance"
  else if file.pid ≤ 1 || file.ppid ≤ 1 then
    .error "bad instance process ID found"
  else
    .ok ()

/-- Outcome of `proc.ReadIDMap("uid_map")` on the target instance
process (prepare_linux.go:827): the host ID of the first mapping line, a
not-exist error (user namespaces unsupported, check skipped), or another
read error. -/
inductive MapReadResult where
  | ok (hid : Nat)
  | errNotExist
  | errOther (msg : String)
deriving DecidableEq, Repr

/-- Outcome of `mainthread.Readlink` on a `/proc/<pid>/root` link:
`os.IsPermission` holds, the read succeeded, or another error
occurred. -/
inductive LinkRead where
  | permDenied
  | success (target : String)
  | otherError (msg : String)
deriving DecidableEq, Repr

/-- The `/proc` probe outcomes consumed by the suid-enforced integrity
checks of `prepareInstanceJoinConfig` (prepare_linux.go:824-920),
relative to the target's `/proc/<pid>` directory: the uid_map read, the
root-link reads of the target and its parent, the `task` directory
ownership stats of the target and its parent (none is a stat error),
whether `status` opened, the PPid value parsed from `status` (-1 when no
line matched), and the `comm` file contents. -/
structure ProcProbes where
  uidMapRead : MapReadResult
  rootLink : LinkRead
  taskStat : Option (Nat × Nat)
  statusOpen : Bool
  statusPPid : Int
  parentRootLink : LinkRead
  parentTaskStat : Option (Nat × Nat)
  commRead : Option String
deriving DecidableEq, Repr

/-- `strings.Trim(s, "\n")` as used on the `comm` contents
(prepare_linux.go:917). -/
def trimNewlines (s : String) : String :=
  String.mk (((s.toList.dropWhile (· = '\n')).reverse.dropWhile
    (· = '\n')).reverse)

/-- The uid_map proof (prepare_linux.go:827-836): a read error other
than not-exist fails; a mapped host ID greater than 0 means the target
runs in a user namespace and fails. -/
def checkUidMap (m : MapReadResult) : Except String Unit :=
  match m with
  | MapReadResult.errOther _ =>
      .error "failed to read user namespace mapping"
  | MapReadResult.ok hid =>
      if hid > 0 then
        .error "trying to join an instance running with user namespace enabled"
      else
        .ok ()
  | MapReadResult.errNotExist => .ok ()

/-- The root-link proof (prepare_linux.go:845-847 and 890-893, the same
logic for the target and its parent): reading the `root` link must yield
a permission-denied error, the fingerprint of a setuid-started process
that has dropped privileges. -/
def checkRootLink (l : LinkRead) : Except String Unit :=
  match l with
  | LinkRead.permDenied => .ok ()
  | _ => .error "trying to join a wrong instance process"

/-- The task-directory ownership proof (prepare_linux.go:852-861 and
894-904, the same logic for the target and its parent): the `task`
directory must stat successfully and be owned by the joining
UID/GID. -/
def checkTaskOwner (uid gid : Nat) (ts : Option (Nat × Nat)) :
    Except String Unit :=
  match ts with
  | none => .error "error while getting information for task directory"
  | some (u, g) =>
      if u ≠ uid ∨ g ≠ gid then
        .error "instance process owned by another user"
      else
        .ok ()

/-- The parent-PID proof (prepare_linux.go:863-883): `status` must open,
and the parsed PPid must exceed 1 and equal the instance record's
PPid. -/
def checkStatusPPid (statusOpen : Bool) (statusPPid filePPid : Int) :
    Except String Unit :=
  if !statusOpen then
    .error "could not open status"
  else if statusPPid ≤ 1 ∨ statusPPid ≠ filePPid then
    .error "orphaned (or faked) instance process"
  else
    .ok ()

/-- The command-name proof (prepare_linux.go:906-919): `comm` must read
successfully and its newline-trimmed contents must equal "sinit". -/
def checkComm (cr : Option String) : Except String Unit :=
  match cr with
  | none => .error "failed to read comm"
  | some s =>
      if trimNewlines s ≠ "sinit" then
        .error "sinit not found, wrong instance process"
      else
        .ok ()

/-- The suid-enforced integrity proofs of `prepareInstanceJoinConfig`
(prepare_linux.go:824-920), in source order: uid_map, target root link,
target task ownership, parent PID from status, parent root link, parent
task ownership, command name. -/
def instanceIntegrityChecks (uid gid : Nat) (filePPid : Int)
    (p : ProcProbes) : Except String Unit := do
  checkUidMap p.uidMapRead
  checkRootLink p.rootLink
  checkTaskOwner uid gid p.taskStat
  checkStatusPPid p.statusOpen p.statusPPid filePPid
  checkRootLink p.parentRootLink
  checkTaskOwner uid gid p.parentTaskStat
  checkComm p.commRead

/-- Every integrity proof passing, as a conjunction of independent
predicates, one per proof. -/
def integrityPass (uid gid : Nat) (filePPid : Int) (p : ProcProbes) : Prop :=
  (p.uidMapRead = MapReadResult.errNotExist ∨
    p.uidMapRead = MapReadResult.ok 0) ∧
  p.rootLink = LinkRead.permDenied ∧
  p.taskStat = some (uid, gid) ∧
  (p.statusOpen = true ∧ p.statusPPid > 1 ∧ p.statusPPid = filePPid) ∧
  p.parentRootLink = LinkRead.permDenied ∧
  p.parentTaskStat = some (uid, gid) ∧
  (∃ s, p.commRead = some s ∧ trimNewlines s = "sinit")

/-- `prepareInstanceJoinConfig` up to the integrity stage
(prepare_linux.go:742-920): the basic checks run first, the
`/proc/<pid>` directory is opened only afterwards (line 806), and the
integrity proofs run only when the suid workflow is required. -/
def prepareInstanceJoinStage (uid gid : Nat) (isSuid : Bool)
    (file : InstanceFile) (procOpenOk : Bool) (p : ProcProbes) :
    Except String Unit := do
  joinBasicChecks uid isSuid file
  if !procOpenOk then throw "could not open proc directory" else pure ()
  if suidRequiredFor uid file then
    instanceIntegrityChecks uid gid file.ppid p
  else
    pure ()

/-- Concrete probe record for the claim C4 witness: every proof
passes. -/
def probesC4 : ProcProbes :=
  ⟨MapReadResult.errNotExist, LinkRead.permDenied, some (1000, 1000),
    true, 4000, LinkRead.permDenied, some (1000, 1000), some "sinit\n"⟩

/-- Observable events of a host-side lifecycle handler:
`readTrigger` is the single one-byte read from the socket, `runCleanup`
the invocation of the engine action, `writeStatus b` the one-byte status
write, `exitOk` the `os.Exit(0)`, and `fatalExit` the process
termination performed by `sylog.Fatalf`. -/
inductive HostEvent where
  | readTrigger
  | runCleanup
  | writeStatus (b : Nat)
  | exitOk
  | fatalExit
deriving DecidableEq, Repr

/-- Outcome of the one-byte socket read, carrying the received byte. -/
inductive SockRead where
  | ok (b : Nat)
  | fail
deriving DecidableEq, Repr

/-- Outcome of the one-byte socket write. -/
inductive SockWrite where
  | ok
  | fail
deriving DecidableEq, Repr

/-- The external interactions a lifecycle handler run can encounter: the
read outcome, the write outcome, and whether the engine cleanup action
returns an error. -/
structure HostHandlerEnv where
  read1 : SockRead
  writeRes : SockWrite
  cleanupErr : Bool
deriving DecidableEq, Repr

/-- `PostStartHost` (starter lifecycle file, lines 18-48) as an event
trace: read one byte (its value unchecked; a read error is fatal), run
the engine post-start action, then write 'f' (0x66) and terminate
fatally on error, or write 'c' (0x63) and exit 0 on success; a write
error is itself fatal. -/
def postStartHost (env : HostHandlerEnv) : List HostEvent :=
  match env.read1 with
  | SockRead.fail => [HostEvent.readTrigger, HostEvent.fatalExit]
  | SockRead.ok _ =>
      if env.cleanupErr then
        match env.writeRes with
        | SockWrite.fail =>
            [HostEvent.readTrigger, HostEvent.runCleanup, HostEvent.fatalExit]
        | SockWrite.ok =>
            [HostEvent.readTrigger, HostEvent.runCleanup,
              HostEvent.writeStatus 102, HostEvent.fatalExit]
      else
        match env.writeRes with
        | SockWrite.fail =>
            [HostEvent.readTrigger, HostEvent.runCleanup, HostEvent.fatalExit]
        | SockWrite.ok =>
            [HostEvent.readTrigger, HostEvent.runCleanup,
              HostEvent.writeStatus 99, HostEvent.exitOk]

/-- `CleanupHost` (starter lifecycle file, lines 51-81): the identical
single-shot protocol around the engine cleanup action. -/
def cleanupHost (env : HostHandlerEnv) : List HostEvent :=
  match env.read1 with
  | SockRead.fail => [HostEvent.readTrigger, HostEvent.fatalExit]
  | SockRead.ok _ =>
      if env.cleanupErr then
        match env.writeRes with
        | SockWrite.fail =>
            [HostEvent.readTrigger, HostEvent.runCleanup, HostEvent.fatalExit]
        | SockWrite.ok =>
            [HostEvent.readTrigger, HostEvent.runCleanup,
              HostEvent.writeStatus 102, HostEvent.fatalExit]
      else
        match env.writeRes with
        | SockWrite.fail =>
            [HostEvent.readTrigger, HostEvent.runCleanup, HostEvent.fatalExit]
        | SockWrite.ok =>
            [HostEvent.readTrigger, HostEvent.runCleanup,
              HostEvent.writeStatus 99, HostEvent.exitOk]

/-- Whether an event terminates the process. -/
def isExitEvent : HostEvent → Bool
  | HostEvent.exitOk => true
  | HostEvent.fatalExit => true
  | _ => false

/-- The inputs of the preparation pipeline that determine the final
no-new-privileges flag: the invoking identity, the workflow, the branch
taken (instance join or fresh container), the capability-resolution
inputs, and the untrusted instance-record values. -/
structure PipelineInput where
  uid : Nat
  isSuid : Bool
  instanceJoin : Bool
  targetUID : Nat
  targetGIDs : List Nat
  userEnv : UserCapsEnv
  addReq : List String
  dropReq : List String
  rootEnv : RootCapsEnv
  rootReq : RootCapsReq
  st0 : ProcessState
  instanceUserNs : Bool
  instanceCaps : CapsSets
  instanceNNP : Bool

/-- The process-state evolution of `PrepareConfig` restricted to the
operations that touch the capability sets and the no-new-privileges
flag: the root-with-target-identity rule (prepare_linux.go:135-140),
the instance-join branch (capability copy at lines 944-951, resolver
dispatch at 956-964, final flag rule at 1025-1032), and the
fresh-container resolver dispatch (lines 631-640).  The steps between
the resolver and the final copy (fakeroot `SetupPrivileged`, security
parameters, image loading) do not modify the flag. -/
def prepareConfigProcessState (inp : PipelineInput) : ProcessState :=
  let st := if inp.uid = 0 ∧ (inp.targetUID ≠ 0 ∨ inp.targetGIDs ≠ []) then
      { inp.st0 with noNewPrivileges := true }
    else inp.st0
  if inp.instanceJoin then
    let st := { st with caps := inp.instanceCaps }
    let sr := decide (inp.uid ≠ 0) && !inp.instanceUserNs
    let st := if inp.uid = 0 then prepareRootCaps inp.rootEnv inp.rootReq st
      else prepareUserCaps inp.userEnv sr inp.addReq inp.dropReq st
    if inp.uid = 0 then { st with noNewPrivileges := inp.instanceNNP }
    else { st with noNewPrivileges := true }
  else
    if inp.uid = 0 then prepareRootCaps inp.rootEnv inp.rootReq st
    else prepareUserCaps inp.userEnv inp.isSuid inp.addReq inp.dropReq st

/-- `starterConfig.SetNoNewPrivs` at the end of `PrepareConfig`
(prepare_linux.go:160): the starter plan copies the process state's
no-new-privileges flag. -/
def starterNoNewPrivs (inp : PipelineInput) : Bool :=
  (prepareConfigProcessState inp).noNewPrivileges

/-- Concrete pipeline input for the claim C10 witness: a non-root fresh
container whose initial state has the flag unset. -/
def inpC10 : PipelineInput :=
  ⟨1000, false, false, 0, [], ⟨⟨[], []⟩, "alice", [], [], []⟩, [], [],
    ⟨⟨[], []⟩, [], [], [], []⟩, ⟨0, [], false, false, "full", [], []⟩,
    ⟨⟨[], [], [], [], []⟩, false⟩, false, ⟨[], [], [], [], []⟩, false⟩

theorem removeNamespace_sublist (l : List LinuxNamespace) (t : NsType) :
    List.Sublist (removeNamespace l t) l := by
  induction l with
  | nil => simp [removeNamespace]
  | cons ns rest ih =>
      by_cases h : ns.type = t
      · simp [removeNamespace, h]
      · simpa [removeNamespace, h] using List.Sublist.cons₂ ns ih

theorem mem_of_mem_removeNamespace {l : List LinuxNamespace} {t : NsType}
    {ns : LinuxNamespace} (h : ns ∈ removeNamespace l t) : ns ∈ l :=
  (removeNamespace_sublist l t).subset h

theorem not_type_mem_removeNamespace {l : List LinuxNamespace} {t : NsType}
    (hnd : (l.map (·.type)).Nodup) :
    ∀ ns ∈ removeNamespace l t, ns.type ≠ t := by
  induction l with
  | nil => simp [removeNamespace]
  | cons hd rest ih =>
      simp only [List.map_cons, List.nodup_cons] at hnd
      obtain ⟨hhd, hrest⟩ := hnd
      by_cases h : hd.type = t
      · intro ns hns
        simp only [removeNamespace, h, if_pos rfl] at hns
        intro habs
        exact hhd (h ▸ habs ▸ List.mem_map_of_mem (·.type) hns)
      · intro ns hns
        simp only [removeNamespace, if_neg h] at hns
        rcases List.mem_cons.mp hns with rfl | hns
        · exact h
        · exact ih hrest ns hns

theorem any_type_removeNamespace (l : List LinuxNamespace) {t s : NsType}
    (h : s ≠ t) :
    (removeNamespace l t).any (·.type = s) = l.any (·.type = s) := by
  induction l with
  | nil => simp [removeNamespace]
  | cons hd rest ih =>
      by_cases hh : hd.type = t
      · have hts : (hd.type = s) = False := by
          simp only [hh, eq_iff_iff, iff_false]
          exact fun habs => h habs.symm
        simp [removeNamespace, hh, hts]
        exact fun habs => absurd habs.symm h
      · simp [removeNamespace, hh, ih]

theorem map_type_addOrReplace_of_any (l : List LinuxNamespace) (t : NsType)
    (p : String) (h : l.any (·.type = t) = true) :
    (addOrReplaceLinuxNamespace l t p).map (·.type) = l.map (·.type) := by
  simp only [addOrReplaceLinuxNamespace, h, if_pos]
  rw [List.map_map]
  apply List.map_congr_left
  intro ns _
  by_cases hns : ns.type = t <;> simp [hns]

theorem map_type_addOrReplace_of_not_any (l : List LinuxNamespace) (t : NsType)
    (p : String) (h : ¬ l.any (·.type = t) = true) :
    (addOrReplaceLinuxNamespace l t p).map (·.type) = l.map (·.type) ++ [t] := by
  simp only [addOrReplaceLinuxNamespace, if_neg h]
  simp

theorem nodup_type_addOrReplace {l : List LinuxNamespace} (t : NsType)
    (p : String) (hnd : (l.map (·.type)).Nodup) :
    ((addOrReplaceLinuxNamespace l t p).map (·.type)).Nodup := by
  by_cases h : l.any (·.type = t) = true
  · rw [map_type_addOrReplace_of_any l t p h]
    exact hnd
  · rw [map_type_addOrReplace_of_not_any l t p h]
    have ht : t ∉ l.map (·.type) := by
      intro habs
      rcases List.mem_map.mp habs with ⟨ns, hns, hty⟩
      exact h (List.any_eq_true.mpr ⟨ns, hns, by simp [hty]⟩)
    refine List.Nodup.append hnd (List.nodup_singleton t) ?_
    intro a ha hb
    simp only [List.mem_singleton] at hb
    subst hb
    exact ht ha

theorem any_type_addOrReplace (l : List LinuxNamespace) {t s : NsType}
    (p : String) (h : s ≠ t) :
    (addOrReplaceLinuxNamespace l t p).any (·.type = s) = l.any (·.type = s) := by
  have key : ∀ m : List LinuxNamespace,
      (m.map (·.type)).any (· = s) = m.any (·.type = s) := by
    intro m
    induction m with
    | nil => simp
    | cons hd rest ih => simp [ih]
  by_cases hany : l.any (·.type = t) = true
  · rw [← key, map_type_addOrReplace_of_any l t p hany, key]
  · rw [← key, map_type_addOrReplace_of_not_any l t p hany]
    simp only [List.any_append, key]
    have hts : ([t].any (· = s)) = false := by
      simp only [List.any_cons, List.any_nil, Bool.or_false, decide_eq_false_iff_not]
      exact fun habs => h habs.symm
    simp [hts]

theorem nodup_type_removeNamespace {l : List LinuxNamespace} (t : NsType)
    (hnd : (l.map (·.type)).Nodup) :
    ((removeNamespace l t).map (·.type)).Nodup :=
  hnd.sublist ((removeNamespace_sublist l t).map (·.type))

theorem nodup_type_nsPhase1 {nss0 : List LinuxNamespace}
    (h : (nss0.map (·.type)).Nodup) :
    ((nsPhase1 nss0).map (·.type)).Nodup :=
  nodup_type_addOrReplace _ _ h

theorem nodup_type_nsPhase2 (cfg : FileConfig) {nss0 : List LinuxNamespace}
    (h : (nss0.map (·.type)).Nodup) :
    ((nsPhase2 cfg nss0).map (·.type)).Nodup := by
  unfold nsPhase2
  split
  · exact nodup_type_nsPhase1 h
  · exact nodup_type_removeNamespace _ (nodup_type_nsPhase1 h)

theorem nodup_type_nsPhase3 (cfg : FileConfig) {nss0 : List LinuxNamespace}
    (h : (nss0.map (·.type)).Nodup) :
    ((nsPhase3 cfg nss0).map (·.type)).Nodup := by
  unfold nsPhase3
  split
  · exact nodup_type_nsPhase2 cfg h
  · exact nodup_type_removeNamespace _ (nodup_type_nsPhase2 cfg h)

theorem mem_nsPhase3_sub (cfg : FileConfig) {nss0 : List LinuxNamespace}
    {ns : LinuxNamespace} (h : ns ∈ nsPhase3 cfg nss0) :
    ns ∈ nsPhase2 cfg nss0 := by
  unfold nsPhase3 at h
  revert h
  split
  · exact id
  · exact mem_of_mem_removeNamespace

theorem mem_nsPhase4_sub (cfg : FileConfig) {nss0 : List LinuxNamespace}
    {ns : LinuxNamespace} (h : ns ∈ nsPhase4 cfg nss0) :
    ns ∈ nsPhase3 cfg nss0 := by
  unfold nsPhase4 at h
  revert h
  split
  · exact id
  · exact mem_of_mem_removeNamespace

theorem any_user_nsPhase3 (cfg : FileConfig) (nss0 : List LinuxNamespace) :
    (nsPhase3 cfg nss0).any (·.type = NsType.user)
      = nss0.any (·.type = NsType.user) := by
  have h1 : (nsPhase1 nss0).any (·.type = NsType.user)
      = nss0.any (·.type = NsType.user) :=
    any_type_addOrReplace nss0 "" (by decide)
  have h2 : (nsPhase2 cfg nss0).any (·.type = NsType.user)
      = nss0.any (·.type = NsType.user) := by
    unfold nsPhase2
    split
    · exact h1
    · rw [any_type_removeNamespace _ (by decide)]; exact h1
  unfold nsPhase3
  split
  · exact h2
  · rw [any_type_removeNamespace _ (by decide)]; exact h2

/-- Claim C5: for every fresh-container preparation whose requested
namespace list holds at most one entry per type (the invariant kept by
the OCI generator), the namespace-policy phase removes IPC/PID/UTS
namespaces disallowed by administrator policy without failing, and
aborts fatally when the user namespace is disallowed while the
installation is unprivileged or the configuration requests it (the
latter covers fakeroot, which requires the user namespace to be
requested). -/
theorem C5_namespace_policy (cfg : FileConfig) (suidInstall : Nat)
    (nss : List LinuxNamespace) (hnd : (nss.map (·.type)).Nodup) :
    (∀ res, prepareNamespacesPhase cfg suidInstall nss = Except.ok res →
       (cfg.allowIpcNs = false → ∀ ns ∈ res, ns.type ≠ NsType.ipc) ∧
       (cfg.allowPidNs = false → ∀ ns ∈ res, ns.type ≠ NsType.pid) ∧
       (cfg.allowUtsNs = false → ∀ ns ∈ res, ns.type ≠ NsType.uts)) ∧
    ((cfg.allowUserNs = true ∨
        (suidInstall ≠ 0 ∧ nss.any (·.type = NsType.user) = false)) →
       (prepareNamespacesPhase cfg suidInstall nss).isOk = true) ∧
    (cfg.allowUserNs = false →
       (suidInstall = 0 ∨ nss.any (·.type = NsType.user) = true) →
       ∃ msg, prepareNamespacesPhase cfg suidInstall nss = Except.error msg) := by
  refine ⟨?_, ?_, ?_⟩
  · intro res hres
    simp only [prepareNamespacesPhase] at hres
    split at hres
    · exact absurd hres (by simp)
    split at hres
    · exact absurd hres (by simp)
    injection hres with hres
    subst hres
    refine ⟨?_, ?_, ?_⟩
    · intro hipc ns hns habs
      have hns2 : ns ∈ nsPhase2 cfg nss :=
        mem_nsPhase3_sub cfg (mem_nsPhase4_sub cfg hns)
      unfold nsPhase2 at hns2
      rw [hipc] at hns2
      simp only [Bool.false_eq_true, if_false] at hns2
      exact not_type_mem_removeNamespace (nodup_type_nsPhase1 hnd) ns hns2 habs
    · intro hpid ns hns habs
      have hns3 : ns ∈ nsPhase3 cfg nss := mem_nsPhase4_sub cfg hns
      unfold nsPhase3 at hns3
      rw [hpid] at hns3
      simp only [Bool.false_eq_true, if_false] at hns3
      exact not_type_mem_removeNamespace (nodup_type_nsPhase2 cfg hnd) ns hns3 habs
    · intro huts ns hns habs
      unfold nsPhase4 at hns
      rw [huts] at hns
      simp only [Bool.false_eq_true, if_false] at hns
      exact not_type_mem_removeNamespace (nodup_type_nsPhase3 cfg hnd) ns hns habs
  · intro hok
    simp only [prepareNamespacesPhase]
    rcases hok with hu | ⟨hsuid, hany⟩
    · simp [hu, Except.isOk, Except.toBool]
    · rw [if_neg (by simp [hsuid])]
      rw [if_neg (by rw [any_user_nsPhase3, hany]; simp)]
      simp [Except.isOk, Except.toBool]
  · intro hu hreq
    simp only [prepareNamespacesPhase]
    rcases hreq with hsuid | hany
    · exact ⟨"Unprivileged installation found, user namepace needed but not allowed by configuration.",
        by rw [if_pos (by simp [hu, hsuid])]⟩
    · by_cases hsuid : suidInstall = 0
      · exact ⟨"Unprivileged installation found, user namepace needed but not allowed by configuration.",
          by rw [if_pos (by simp [hu, hsuid])]⟩
      · refine ⟨"User namespace required but not allowed by configuration.", ?_⟩
        rw [if_neg (by simp [hu, hsuid])]
        rw [if_pos (by rw [any_user_nsPhase3, hany]; simp [hu])]

/-- Witness for claim C5: with IPC disallowed and the user namespace
allowed, preparation succeeds and the plan contains no IPC namespace. -/
theorem C5_namespace_policy_witness :
    (∀ res, prepareNamespacesPhase
        ⟨"yes", true, false, true, true, true, [], "full"⟩ 1
        [⟨NsType.ipc, ""⟩, ⟨NsType.pid, ""⟩] = Except.ok res →
        ∀ ns ∈ res, ns.type ≠ NsType.ipc) ∧
    (prepareNamespacesPhase
        ⟨"yes", true, false, true, true, true, [], "full"⟩ 1
        [⟨NsType.ipc, ""⟩, ⟨NsType.pid, ""⟩]).isOk = true := by
  have h := C5_namespace_policy
    ⟨"yes", true, false, true, true, true, [], "full"⟩ 1
    [⟨NsType.ipc, ""⟩, ⟨NsType.pid, ""⟩] (by decide)
  exact ⟨fun res hres => (h.1 res hres).1 rfl, h.2.1 (Or.inl rfl)⟩

/-- Claim C6: for a request to join a network namespace by path (a path
short enough to fit the starter buffer, which any path accepted by
`os.Stat` is), the join succeeds exactly when the path exists and either
the effective UID is root, or the path is in the administrator netns
allow-list and the user is allowed by UID or by group; and on success the
stored join path is the requested one. -/
theorem C6_join_netns (cfg : FileConfig) (env : NetnsEnv)
    (nss : List LinuxNamespace) (path : String)
    (hpath : hasNamespacePath nss NsType.net = some path)
    (hne : path ≠ "")
    (hlen : path.length ≤ maxPathSize - 1) :
    ((joinNetns cfg env nss).isOk = true ↔
      (env.pathOk = true ∧
        (env.euid = 0 ∨
          (path ∈ cfg.allowNetnsPaths ∧
            (env.allowedNetUser = true ∨ env.allowedNetGroup = true))))) ∧
    (∀ r, joinNetns cfg env nss = Except.ok r → r = some path) := by
  have hck : setNsPathCheck path = Except.ok () := by
    simp only [setNsPathCheck]
    rw [if_neg (by omega)]
  constructor
  · by_cases hroot : env.euid = 0 <;>
    cases hstat : env.pathOk <;>
    by_cases hperm : path ∈ cfg.allowNetnsPaths <;>
    cases huser : env.allowedNetUser <;>
    cases hgrp : env.allowedNetGroup <;>
    simp [joinNetns, hpath, hck, hne, hroot, hstat, hperm, huser, hgrp,
      Except.isOk, Except.toBool]
  · intro r hr
    simp only [joinNetns, hpath, hck] at hr
    rw [if_neg hne] at hr
    split at hr
    · exact absurd hr (by simp)
    split at hr
    · injection hr with h
      exact h.symm
    split at hr
    · exact absurd hr (by simp)
    split at hr
    · exact absurd hr (by simp)
    · injection hr with h
      exact h.symm

/-- Witness for claim C6: a non-root user joining an existing allow-listed
netns path while being in the allowed-users list succeeds; the theorem is
applied at this concrete configuration. -/
theorem C6_join_netns_witness :
    (joinNetns ⟨"yes", true, true, true, true, true, ["/run/netns/test"], "full"⟩
      ⟨1000, true, true, false⟩
      [⟨NsType.net, "/run/netns/test"⟩]).isOk = true := by
  have h := C6_join_netns
    ⟨"yes", true, true, true, true, true, ["/run/netns/test"], "full"⟩
    ⟨1000, true, true, false⟩
    [⟨NsType.net, "/run/netns/test"⟩] "/run/netns/test"
    (by simp [hasNamespacePath, List.find?]) (by decide) (by decide)
  exact h.1.mpr ⟨rfl, Or.inr ⟨by simp, Or.inl rfl⟩⟩

theorem mem_eraseAll {l : List String} (hnd : l.Nodup) (drops : List String)
    (c : String) :
    c ∈ eraseAll l drops ↔ c ∈ l ∧ ¬ c ∈ drops := by
  induction drops generalizing l with
  | nil => simp [eraseAll]
  | cons d rest ih =>
      have : eraseAll l (d :: rest) = eraseAll (l.erase d) rest := rfl
      rw [this, ih (hnd.erase d)]
      rw [List.Nodup.mem_erase_iff hnd]
      constructor
      · rintro ⟨⟨hcd, hcl⟩, hcr⟩
        exact ⟨hcl, by simp [hcd, hcr]⟩
      · rintro ⟨hcl, hcdr⟩
        simp only [List.mem_cons, not_or] at hcdr
        exact ⟨⟨hcdr.1, hcl⟩, hcdr.2⟩

theorem mem_groupCapsFold (cfg : CapAuthConfig)
    (groupNames : List (Nat × String)) (caps : List String)
    (gs : List Nat) (acc : List String) (c : String) :
    c ∈ groupCapsFold cfg groupNames caps gs acc ↔
      c ∈ acc ∨ ∃ g ∈ gs, ∃ e, groupNames.find? (·.1 = g) = some e ∧
        c ∈ (checkGroupCaps cfg e.2 caps).1 := by
  induction gs generalizing acc with
  | nil => simp [groupCapsFold]
  | cons g rest ih =>
      simp only [groupCapsFold]
      cases hfind : groupNames.find? (·.1 = g) with
      | none =>
          rw [ih]
          constructor
          · rintro (h | ⟨g2, hg2, e, he, hc⟩)
            · exact Or.inl h
            · exact Or.inr ⟨g2, List.mem_cons_of_mem _ hg2, e, he, hc⟩
          · rintro (h | ⟨g2, hg2, e, he, hc⟩)
            · exact Or.inl h
            · rcases List.mem_cons.mp hg2 with rfl | hg2
              · rw [hfind] at he
                exact absurd he (by simp)
              · exact Or.inr ⟨g2, hg2, e, he, hc⟩
      | some e0 =>
          rw [ih]
          simp only [List.mem_append]
          constructor
          · rintro ((h | h) | ⟨g2, hg2, e, he, hc⟩)
            · exact Or.inl h
            · exact Or.inr ⟨g, List.mem_cons_self g rest, e0, hfind, h⟩
            · exact Or.inr ⟨g2, List.mem_cons_of_mem _ hg2, e, he, hc⟩
          · rintro (h | ⟨g2, hg2, e, he, hc⟩)
            · exact Or.inl (Or.inl h)
            · rcases List.mem_cons.mp hg2 with rfl | hg2
              · rw [hfind] at he
                injection he with he
                subst he
                exact Or.inl (Or.inr hc)
              · exact Or.inr ⟨g2, hg2, e, he, hc⟩

theorem mem_userCapsCompute (env : UserCapsEnv) (enforced : Bool)
    (addReq dropReq P0 : List String) (c : String) :
    c ∈ userCapsCompute env enforced addReq dropReq P0 ↔
      (((c ∈ addReq ∧ c ∈ env.knownCaps) ∨ c ∈ P0) ∧
        (enforced = true → userAuthOk env c) ∧
        ¬ (c ∈ dropReq ∧ c ∈ env.knownCaps)) := by
  have hmem_caps : c ∈ (capSplit env.knownCaps addReq).1 ++ P0 ↔
      ((c ∈ addReq ∧ c ∈ env.knownCaps) ∨ c ∈ P0) := by
    simp [capSplit, List.mem_filter]
  have hmem_drop : c ∈ (capSplit env.knownCaps dropReq).1 ↔
      (c ∈ dropReq ∧ c ∈ env.knownCaps) := by
    simp [capSplit, List.mem_filter]
  simp only [userCapsCompute, removeDuplicated]
  rw [mem_eraseAll (List.nodup_dedup _), List.mem_dedup, hmem_drop]
  cases enforced with
  | false =>
      simp only [Bool.false_eq_true, if_false, hmem_caps]
      constructor
      · rintro ⟨h1, h2⟩
        exact ⟨h1, fun habs => absurd habs (by simp), h2⟩
      · rintro ⟨h1, _, h2⟩
        exact ⟨h1, h2⟩
  | true =>
      simp only [if_pos, enforcedCommonCaps]
      rw [mem_groupCapsFold]
      have huc : c ∈ (checkUserCaps env.capCfg env.userName
          ((capSplit env.knownCaps addReq).1 ++ P0)).1 ↔
          (c ∈ (capSplit env.knownCaps addReq).1 ++ P0 ∧
            c ∈ listUserCaps env.capCfg env.userName) := by
        simp only [checkUserCaps, List.mem_filter, List.mem_append,
          decide_eq_true_eq]
      have hgc : ∀ gname, c ∈ (checkGroupCaps env.capCfg gname
          ((capSplit env.knownCaps addReq).1 ++ P0)).1 ↔
          (c ∈ (capSplit env.knownCaps addReq).1 ++ P0 ∧
            c ∈ listGroupCaps env.capCfg gname) := by
        intro gname
        simp only [checkGroupCaps, List.mem_filter, List.mem_append,
          decide_eq_true_eq]
      rw [huc]
      constructor
      · rintro ⟨h1, h2⟩
        rcases h1 with ⟨hcaps, hu⟩ | ⟨g, hg, e, he, hc⟩
        · exact ⟨hmem_caps.mp hcaps, fun _ => Or.inl hu, h2⟩
        · rw [hgc] at hc
          exact ⟨hmem_caps.mp hc.1, fun _ => Or.inr ⟨g, hg, e, he, hc.2⟩, h2⟩
      · rintro ⟨h1, hauth, h2⟩
        rcases hauth (by trivial) with hu | ⟨g, hg, e, he, hc⟩
        · exact ⟨Or.inl ⟨hmem_caps.mpr h1, hu⟩, h2⟩
        · exact ⟨Or.inr ⟨g, hg, e, he, (hgc e.2).mpr ⟨hmem_caps.mpr h1, hc⟩⟩, h2⟩

/-- Claim C7: capability resolution is idempotent.  For the non-root
resolver, running it a second time on the process state produced by the
first run yields the same five final capability sets (the bitmask
contents, i.e. membership); the root resolver even reproduces the
identical process state. -/
theorem C7_capability_resolution_idempotent (env : UserCapsEnv)
    (enforced : Bool) (addReq dropReq : List String)
    (renv : RootCapsEnv) (req : RootCapsReq) (st : ProcessState) :
    (∀ c,
      (c ∈ (prepareUserCaps env enforced addReq dropReq
          (prepareUserCaps env enforced addReq dropReq st)).caps.permitted ↔
        c ∈ (prepareUserCaps env enforced addReq dropReq st).caps.permitted) ∧
      (c ∈ (prepareUserCaps env enforced addReq dropReq
          (prepareUserCaps env enforced addReq dropReq st)).caps.effective ↔
        c ∈ (prepareUserCaps env enforced addReq dropReq st).caps.effective) ∧
      (c ∈ (prepareUserCaps env enforced addReq dropReq
          (prepareUserCaps env enforced addReq dropReq st)).caps.inheritable ↔
        c ∈ (prepareUserCaps env enforced addReq dropReq st).caps.inheritable) ∧
      (c ∈ (prepareUserCaps env enforced addReq dropReq
          (prepareUserCaps env enforced addReq dropReq st)).caps.bounding ↔
        c ∈ (prepareUserCaps env enforced addReq dropReq st).caps.bounding) ∧
      (c ∈ (prepareUserCaps env enforced addReq dropReq
          (prepareUserCaps env enforced addReq dropReq st)).caps.ambient ↔
        c ∈ (prepareUserCaps env enforced addReq dropReq st).caps.ambient)) ∧
    prepareRootCaps renv req (prepareRootCaps renv req st) =
      prepareRootCaps renv req st := by
  constructor
  · intro c
    have key : c ∈ userCapsCompute env enforced addReq dropReq
        (userCapsCompute env enforced addReq dropReq st.caps.permitted) ↔
        c ∈ userCapsCompute env enforced addReq dropReq st.caps.permitted := by
      rw [mem_userCapsCompute, mem_userCapsCompute]
      constructor
      · rintro ⟨h1, h2, h3⟩
        rcases h1 with hadd | hr
        · exact ⟨Or.inl hadd, h2, h3⟩
        · exact hr
      · intro h
        exact ⟨Or.inr h, h.2.1, h.2.2⟩
    exact ⟨key, key, key, key, key⟩
  · by_cases hm : rootDefaultMode req = "full" ∨ rootDefaultMode req = "file"
    · simp [prepareRootCaps, hm]
    · simp [prepareRootCaps, hm]

/-- Counterexample to claim C8 as stated: in an enforced non-root
resolution with an empty requested add list, the resulting effective set
still contains `CAP_NET_ADMIN` (inherited from the pre-existing
permitted set, line 234), so the effective set is not contained in
(authorized ∩ requested-adds) minus drops, whose add component is
empty. -/
theorem C8_counterexample :
    "CAP_NET_ADMIN" ∈
      (prepareUserCaps envC8 true [] [] stC8).caps.effective ∧
    ¬ "CAP_NET_ADMIN" ∈ ([] : List String) := by
  constructor
  · decide
  · decide

/-- Claim C8 (amended): for every enforced non-root capability
resolution, every capability in the resulting effective set is
authorized for the invoking user name or one of the user's groups, comes
from the requested add list or the pre-existing permitted set, and is
not a known requested drop; in particular no requested capability
outside the authorization tables is ever granted. -/
theorem C8_effective_subset (env : UserCapsEnv)
    (addReq dropReq : List String) (st : ProcessState) (c : String)
    (hc : c ∈ (prepareUserCaps env true addReq dropReq st).caps.effective) :
    userAuthOk env c ∧ (c ∈ addReq ∨ c ∈ st.caps.permitted) ∧
      ¬ (c ∈ dropReq ∧ c ∈ env.knownCaps) := by
  have hch : c ∈ userCapsCompute env true addReq dropReq st.caps.permitted := hc
  obtain ⟨h1, h2, h3⟩ := (mem_userCapsCompute env true addReq dropReq
    st.caps.permitted c).mp hch
  refine ⟨h2 rfl, ?_, h3⟩
  rcases h1 with ⟨ha, _⟩ | hp
  · exact Or.inl ha
  · exact Or.inr hp

/-- Witness for the amended claim C8: requesting `CAP_NET_ADMIN` as an
authorized user yields an effective set member that is authorized, comes
from the request, and is not dropped. -/
theorem C8_effective_subset_witness :
    userAuthOk envC8 "CAP_NET_ADMIN" ∧
    ("CAP_NET_ADMIN" ∈ ["CAP_NET_ADMIN"] ∨
      "CAP_NET_ADMIN" ∈ stC8b.caps.permitted) ∧
    ¬ ("CAP_NET_ADMIN" ∈ ([] : List String) ∧
        "CAP_NET_ADMIN" ∈ envC8.knownCaps) :=
  C8_effective_subset envC8 ["CAP_NET_ADMIN"] [] stC8b "CAP_NET_ADMIN"
    (by decide)

theorem getIDRange_containerID {sub : List (Nat × Nat × Nat)} {uid : Nat}
    {r : IDRange} (h : getIDRange sub uid = some r) : r.containerID = 1 := by
  simp only [getIDRange] at h
  cases hfind : sub.find? (·.1 = uid) with
  | none => rw [hfind] at h; exact absurd h (by simp)
  | some e =>
      rw [hfind] at h
      injection h with h
      subst h
      rfl

/-- Claim C2: for every fakeroot request that succeeds, the UID mapping
list is exactly the singleton (container 0, host = invoking UID,
size 1) followed by the administrator-allocated subordinate range for
that user (whose container IDs start at 1), and likewise for the GID
mapping; and the request fails when no subordinate range is configured
for the user. -/
theorem C2_fakeroot_mappings (uid gid : Nat)
    (subUID subGID : List (Nat × Nat × Nat)) :
    (∀ ru rg, getIDRange subUID uid = some ru →
      getIDRange subGID uid = some rg →
      fakerootMappings uid gid subUID subGID =
        Except.ok
          ([⟨0, uid, 1⟩, ⟨ru.containerID, ru.hostID, ru.size⟩],
           [⟨0, gid, 1⟩, ⟨rg.containerID, rg.hostID, rg.size⟩]) ∧
        ru.containerID = 1 ∧ rg.containerID = 1) ∧
    (getIDRange subUID uid = none →
      ∃ msg, fakerootMappings uid gid subUID subGID = Except.error msg) ∧
    (getIDRange subGID uid = none →
      ∃ msg, fakerootMappings uid gid subUID subGID = Except.error msg) := by
  refine ⟨?_, ?_, ?_⟩
  · intro ru rg hru hrg
    refine ⟨?_, getIDRange_containerID hru, getIDRange_containerID hrg⟩
    simp [fakerootMappings, hru, hrg, addLinuxIDMapping]
  · intro hru
    exact ⟨"could not use fakeroot: no subordinate UID range found",
      by simp [fakerootMappings, hru]⟩
  · intro hrg
    cases hru : getIDRange subUID uid with
    | none =>
        exact ⟨"could not use fakeroot: no subordinate UID range found",
          by simp [fakerootMappings, hru]⟩
    | some ru =>
        exact ⟨"could not use fakeroot: no subordinate GID range found",
          by simp [fakerootMappings, hru, hrg]⟩

/-- Witness for claim C2, the spec scenario: invoking UID 1000 with a
configured subordinate range of size 65536 starting at host ID 100000
produces the mapping list [(0,1000,1),(1,100000,65536)]. -/
theorem C2_fakeroot_mappings_witness :
    fakerootMappings 1000 1000 [(1000, 100000, 65536)] [(1000, 100000, 65536)] =
      Except.ok
        ([⟨0, 1000, 1⟩, ⟨1, 100000, 65536⟩],
         [⟨0, 1000, 1⟩, ⟨1, 100000, 65536⟩]) := by
  have h := (C2_fakeroot_mappings 1000 1000
    [(1000, 100000, 65536)] [(1000, 100000, 65536)]).1
    ⟨100000, 1, 65536⟩ ⟨100000, 1, 65536⟩ (by decide) (by decide)
  exact h.1

theorem bind_ok_iff (a : Except String Unit) (f : Unit → Except String Unit) :
    (a >>= f) = Except.ok () ↔ (a = Except.ok () ∧ f () = Except.ok ()) := by
  cases a with
  | error e => simp [Bind.bind, Except.bind]
  | ok u => cases u; simp [Bind.bind, Except.bind]

theorem checkUidMap_ok_iff (m : MapReadResult) :
    checkUidMap m = Except.ok () ↔
      (m = MapReadResult.errNotExist ∨ m = MapReadResult.ok 0) := by
  cases m with
  | errOther msg => simp [checkUidMap]
  | errNotExist => simp [checkUidMap]
  | ok hid =>
      simp only [checkUidMap]
      by_cases h : hid > 0
      · simp [h]
        omega
      · simp [h]
        omega

theorem checkRootLink_ok_iff (l : LinkRead) :
    checkRootLink l = Except.ok () ↔ l = LinkRead.permDenied := by
  cases l <;> simp [checkRootLink]

theorem checkTaskOwner_ok_iff (uid gid : Nat) (ts : Option (Nat × Nat)) :
    checkTaskOwner uid gid ts = Except.ok () ↔ ts = some (uid, gid) := by
  cases ts with
  | none => simp [checkTaskOwner]
  | some ug =>
      obtain ⟨u, g⟩ := ug
      simp only [checkTaskOwner]
      by_cases h : u ≠ uid ∨ g ≠ gid
      · rw [if_pos h]
        constructor
        · intro habs
          exact absurd habs (by simp)
        · intro habs
          simp only [Option.some.injEq, Prod.mk.injEq] at habs
          rcases h with h | h
          · exact absurd habs.1 h
          · exact absurd habs.2 h
      · push_neg at h
        rw [if_neg (by simp [h.1, h.2])]
        simp [h.1, h.2]

theorem checkStatusPPid_ok_iff (so : Bool) (sp fp : Int) :
    checkStatusPPid so sp fp = Except.ok () ↔
      (so = true ∧ sp > 1 ∧ sp = fp) := by
  cases so with
  | false => simp [checkStatusPPid]
  | true =>
      simp only [checkStatusPPid, Bool.not_true, Bool.false_eq_true, if_false]
      by_cases h : sp ≤ 1 ∨ sp ≠ fp
      · rw [if_pos h]
        constructor
        · intro habs
          exact absurd habs (by simp)
        · rintro ⟨-, h1, h2⟩
          rcases h with h | h
          · omega
          · exact absurd h2 h
      · rw [if_neg h]
        push_neg at h
        constructor
        · intro _
          exact ⟨by trivial, by omega, h.2⟩
        · intro _
          rfl

theorem checkComm_ok_iff (cr : Option String) :
    checkComm cr = Except.ok () ↔
      (∃ s, cr = some s ∧ trimNewlines s = "sinit") := by
  cases cr with
  | none => simp [checkComm]
  | some s =>
      simp only [checkComm]
      by_cases h : trimNewlines s ≠ "sinit"
      · simp [h]
      · push_neg at h
        simp [h]

/-- Claim C4: on the setuid-enforced instance-join path the integrity
proofs are conjunctive: preparation succeeds exactly when every proof
passes (no user-namespace mapping, permission-denied target root link,
target task ownership, status PPid matching the record and exceeding 1,
the same two proofs for the parent, and command name "sinit"), so
flipping any single proof from pass to fail while the others pass turns
success into an integrity error. -/
theorem C4_integrity_conjunctive (uid gid : Nat) (filePPid : Int)
    (p : ProcProbes) :
    (instanceIntegrityChecks uid gid filePPid p = Except.ok () ↔
      integrityPass uid gid filePPid p) ∧
    (¬ integrityPass uid gid filePPid p →
      ∃ msg, instanceIntegrityChecks uid gid filePPid p =
        Except.error msg) := by
  have hiff : instanceIntegrityChecks uid gid filePPid p = Except.ok () ↔
      integrityPass uid gid filePPid p := by
    simp only [instanceIntegrityChecks, integrityPass, bind_ok_iff,
      checkUidMap_ok_iff, checkRootLink_ok_iff, checkTaskOwner_ok_iff,
      checkStatusPPid_ok_iff, checkComm_ok_iff]
  refine ⟨hiff, ?_⟩
  intro hfail
  cases hres : instanceIntegrityChecks uid gid filePPid p with
  | error msg => exact ⟨msg, rfl⟩
  | ok u =>
      cases u
      exact absurd (hiff.mp hres) hfail

/-- Witness for claim C4: with every proof passing, the integrity stage
succeeds; flipping the command-name proof alone makes it fail. -/
theorem C4_integrity_conjunctive_witness :
    instanceIntegrityChecks 1000 1000 4000 probesC4 = Except.ok () ∧
    (∃ msg,
      instanceIntegrityChecks 1000 1000 4000
        { probesC4 with commRead := some "bash\n" } = Except.error msg) := by
  constructor
  · exact (C4_integrity_conjunctive 1000 1000 4000 probesC4).1.mpr
      (by refine ⟨Or.inl rfl, rfl, rfl, ⟨rfl, by decide, rfl⟩, rfl, rfl,
        ⟨"sinit\n", rfl, by decide⟩⟩)
  · exact (C4_integrity_conjunctive 1000 1000 4000
      { probesC4 with commRead := some "bash\n" }).2
      (by
        intro hpass
        obtain ⟨-, -, -, -, -, -, s, hs, htrim⟩ := hpass
        injection hs with hs
        subst hs
        exact absurd htrim (by decide))

/-- Claim C3: an instance-join request by a non-root user without the
setuid workflow against a non-user-namespaced instance fails with a
privilege-mismatch error; a setuid-workflow join against a
user-namespaced instance (or by root) fails likewise; and an instance
record with PID or PPID at most 1 fails — in every case with an error
that does not depend on the `/proc` probes, since the pipeline returns
before the `/proc/<pid>` directory is opened. -/
theorem C3_join_basic_checks (uid gid : Nat) (isSuid : Bool)
    (file : InstanceFile) :
    (uid ≠ 0 → file.userNs = false → isSuid = false →
      ∃ msg, ∀ (procOpenOk : Bool) (p : ProcProbes),
        prepareInstanceJoinStage uid gid isSuid file procOpenOk p =
          Except.error msg) ∧
    ((uid = 0 ∨ file.userNs = true) → isSuid = true →
      ∃ msg, ∀ (procOpenOk : Bool) (p : ProcProbes),
        prepareInstanceJoinStage uid gid isSuid file procOpenOk p =
          Except.error msg) ∧
    ((file.pid ≤ 1 ∨ file.ppid ≤ 1) →
      ∃ msg, ∀ (procOpenOk : Bool) (p : ProcProbes),
        prepareInstanceJoinStage uid gid isSuid file procOpenOk p =
          Except.error msg) := by
  have herr : ∀ msg, joinBasicChecks uid isSuid file = Except.error msg →
      ∀ (procOpenOk : Bool) (p : ProcProbes),
        prepareInstanceJoinStage uid gid isSuid file procOpenOk p =
          Except.error msg := by
    intro msg hmsg procOpenOk p
    simp [prepareInstanceJoinStage, hmsg, Bind.bind, Except.bind]
  refine ⟨?_, ?_, ?_⟩
  · intro hu hns hsuid
    refine ⟨"a setuid installation is required to join this instance",
      herr _ ?_⟩
    have hsr : suidRequiredFor uid file = true := by
      simp [suidRequiredFor, hu, hns]
    simp [joinBasicChecks, hsr, hsuid]
  · intro hroot hsuid
    refine ⟨"joining user namespace with suid workflow is not allowed",
      herr _ ?_⟩
    have hsr : suidRequiredFor uid file = false := by
      rcases hroot with h | h <;> simp [suidRequiredFor, h]
    simp [joinBasicChecks, hsr, hsuid]
  · intro hpid
    by_cases h1 : isSuid && !(suidRequiredFor uid file)
    · refine ⟨"joining user namespace with suid workflow is not allowed",
        herr _ ?_⟩
      simp [joinBasicChecks, h1]
    · by_cases h2 : !isSuid && suidRequiredFor uid file
      · refine ⟨"a setuid installation is required to join this instance",
          herr _ ?_⟩
        simp only [joinBasicChecks]
        rw [if_neg h1, if_pos h2]
      · refine ⟨"bad instance process ID found", herr _ ?_⟩
        simp only [joinBasicChecks]
        rw [if_neg h1, if_neg h2, if_pos (by simpa using hpid)]

/-- Witness for claim C3, the spec scenario: UID 1000 joining a
non-user-namespaced instance without the setuid workflow fails with the
privilege-mismatch error for every `/proc` probe outcome. -/
theorem C3_join_basic_checks_witness :
    ∃ msg, ∀ (procOpenOk : Bool) (p : ProcProbes),
      prepareInstanceJoinStage 1000 1000 false ⟨4242, 4000, false, false⟩
        procOpenOk p = Except.error msg :=
  (C3_join_basic_checks 1000 1000 false ⟨4242, 4000, false, false⟩).1
    (by decide) rfl rfl

theorem cleanupHost_eq_postStartHost (env : HostHandlerEnv) :
    cleanupHost env = postStartHost env := rfl

theorem postStartHost_props (env : HostHandlerEnv) :
    ((postStartHost env).countP (· = HostEvent.readTrigger) = 1) ∧
    (∀ b b', postStartHost { env with read1 := SockRead.ok b } =
      postStartHost { env with read1 := SockRead.ok b' }) ∧
    (∀ n, HostEvent.writeStatus n ∈ postStartHost env →
      n = 99 ∨ n = 102) ∧
    (∀ b, env.read1 = SockRead.ok b → env.writeRes = SockWrite.ok →
      postStartHost env =
        [HostEvent.readTrigger, HostEvent.runCleanup,
          HostEvent.writeStatus (if env.cleanupErr then 102 else 99),
          if env.cleanupErr then HostEvent.fatalExit else HostEvent.exitOk]) ∧
    (∃ ev, (postStartHost env).getLast? = some ev ∧ isExitEvent ev = true) := by
  obtain ⟨r, w, c⟩ := env
  cases r <;> cases w <;> cases c <;>
    simp [postStartHost, isExitEvent]

/-- Claim C9: each host-side lifecycle handler is single-shot: it reads
exactly one byte without inspecting its value, performs its cleanup
action, writes back exactly one status byte — 'c' (99) on success, 'f'
(102) on failure, never any other value — and then terminates the
process; this holds for both `PostStartHost` and `CleanupHost`. -/
theorem C9_lifecycle_single_shot (env : HostHandlerEnv) :
    (((postStartHost env).countP (· = HostEvent.readTrigger) = 1) ∧
     (∀ b b', postStartHost { env with read1 := SockRead.ok b } =
       postStartHost { env with read1 := SockRead.ok b' }) ∧
     (∀ n, HostEvent.writeStatus n ∈ postStartHost env →
       n = 99 ∨ n = 102) ∧
     (∀ b, env.read1 = SockRead.ok b → env.writeRes = SockWrite.ok →
       postStartHost env =
         [HostEvent.readTrigger, HostEvent.runCleanup,
           HostEvent.writeStatus (if env.cleanupErr then 102 else 99),
           if env.cleanupErr then HostEvent.fatalExit else HostEvent.exitOk]) ∧
     (∃ ev, (postStartHost env).getLast? = some ev ∧ isExitEvent ev = true)) ∧
    (((cleanupHost env).countP (· = HostEvent.readTrigger) = 1) ∧
     (∀ b b', cleanupHost { env with read1 := SockRead.ok b } =
       cleanupHost { env with read1 := SockRead.ok b' }) ∧
     (∀ n, HostEvent.writeStatus n ∈ cleanupHost env →
       n = 99 ∨ n = 102) ∧
     (∀ b, env.read1 = SockRead.ok b → env.writeRes = SockWrite.ok →
       cleanupHost env =
         [HostEvent.readTrigger, HostEvent.runCleanup,
           HostEvent.writeStatus (if env.cleanupErr then 102 else 99),
           if env.cleanupErr then HostEvent.fatalExit else HostEvent.exitOk]) ∧
     (∃ ev, (cleanupHost env).getLast? = some ev ∧ isExitEvent ev = true)) := by
  refine ⟨postStartHost_props env, ?_⟩
  simp only [cleanupHost_eq_postStartHost]
  exact postStartHost_props env

/-- Claim C10: every preparation by a non-root user — fresh container or
instance join — yields a plan with no-new-privileges set: the non-root
capability resolver sets it unconditionally, the join path forces it for
any non-root joiner regardless of the untrusted instance record, and the
starter configuration receives exactly this flag. -/
theorem C10_no_new_privs_nonroot (inp : PipelineInput) (h : inp.uid ≠ 0) :
    starterNoNewPrivs inp = true ∧
    starterNoNewPrivs inp = (prepareConfigProcessState inp).noNewPrivileges := by
  refine ⟨?_, rfl⟩
  simp only [starterNoNewPrivs, prepareConfigProcessState, if_neg h]
  by_cases hj : inp.instanceJoin
  · simp [hj, h]
  · simp [hj, h, prepareUserCaps]

/-- Witness for claim C10: the concrete non-root preparation yields a
plan with no-new-privileges set. -/
theorem C10_no_new_privs_nonroot_witness :
    starterNoNewPrivs inpC10 = true :=
  (C10_no_new_privs_nonroot inpC10 (by decide)).1

/-- Claim C1: whenever both a writable image and at least one overlay
image are requested, session-layer selection fails with a configuration
error (before any layer is chosen, since `setSessionLayer` returns this
error ahead of its decision table); and for every input combination,
a selection that does not error assigns exactly one of
overlay/underlay/none as the session layer. -/
theorem C1_session_layer_total (cfg : FileConfig) (env : SessionEnv)
    (req : SessionRequest) (img : Image) (lower : LowerCheck) :
    (req.writableImage = true → req.overlayImages ≠ [] →
      ∃ msg, sessionLayerSelection cfg env req img lower = Except.error msg) ∧
    ((sessionLayerSelection cfg env req img lower).isOk = true →
      ∃! l : SessionLayer,
        sessionLayerSelection cfg env req img lower = Except.ok l) := by
  constructor
  · intro hw ho
    refine ⟨"you could not use --overlay in conjunction with --writable", ?_⟩
    have hlen : req.overlayImages.length > 0 := List.length_pos.mpr ho
    simp [sessionLayerSelection, setSessionLayer, hw, hlen]
  · intro hok
    cases h : sessionLayerSelection cfg env req img lower with
    | error e =>
        rw [h] at hok
        simp [Except.isOk, Except.toBool] at hok
    | ok l =>
        refine ⟨l, rfl, ?_⟩
        intro l' hl'
        cases hl'
        rfl

/-- Witness for claim C1: a configuration requesting `--writable`
together with one overlay image makes session-layer selection fail. -/
theorem C1_session_layer_total_witness :
    ∃ msg,
      sessionLayerSelection
        ⟨"yes", true, true, true, true, true, [], "full"⟩
        ⟨false, false, true⟩
        ⟨false, true, ["/tmp/overlay.img"], []⟩
        ⟨ImageType.sif, "/tmp/img.sif", true, []⟩
        LowerCheck.compatible = Except.error msg :=
  (C1_session_layer_total _ _ _ _ _).1 rfl (by simp)

end Singularity
